import Mathlib

/-!
Verification development for the mcu repository (VASP/Wannier90 post-processing).

The definitions below are shallow embeddings of the Python source:
  * `src/mcu/vasp/main.py`   (class VASP: `__init__`, `get_bandgap`,
    `_generate_band`, `_generate_pband`)
  * `src/mcu/wannier90/pywannier90_vasp.py` (`R_r`, `theta`, `theta_lmr`,
    `g_r`, `W90.export_AME`, `W90.read_A_mat`, `W90.get_wannier`)

Machine floats are modelled by exact numbers (`ℚ` where the code only
compares, adds, multiplies and divides; `ℝ` where the code calls
transcendental functions).  A Python exception is modelled by `Option.none`
or `Except.error`.
-/

namespace Mcu

/-- First index of a maximal element among the first `n` entries of `l`
(out-of-range entries read as `0`); scan that replaces the current best
only on a strictly larger value, i.e. the semantics of `np.argmax`
(first occurrence of the maximum). -/
def argmaxAux (l : List ℚ) : ℕ → ℕ
  | 0 => 0
  | n + 1 =>
    let b := argmaxAux l n
    if l.getD n 0 > l.getD b 0 then n else b

/-- `np.argmax` over a rational list: first index attaining the maximum. -/
def argmaxIdx (l : List ℚ) : ℕ := argmaxAux l l.length

/-- First index of a minimal element among the first `n` entries of `l`;
semantics of `np.argmin` (first occurrence of the minimum). -/
def argminAux (l : List ℚ) : ℕ → ℕ
  | 0 => 0
  | n + 1 =>
    let b := argminAux l n
    if l.getD n 0 < l.getD b 0 then n else b

/-- `np.argmin` over a rational list: first index attaining the minimum. -/
def argminIdx (l : List ℚ) : ℕ := argminAux l l.length

theorem argmaxAux_lt (l : List ℚ) (n : ℕ) (hn : 0 < n) : argmaxAux l n < n := by
  induction n with
  | zero => omega
  | succ m ih =>
    by_cases hm : 0 < m
    · have := ih hm
      simp only [argmaxAux]
      split <;> omega
    · interval_cases m
      simp [argmaxAux]

theorem argmaxAux_le (l : List ℚ) (n : ℕ) (j : ℕ) (hj : j < n) :
    l.getD j 0 ≤ l.getD (argmaxAux l n) 0 := by
  induction n with
  | zero => omega
  | succ m ih =>
    simp only [argmaxAux]
    rcases Nat.lt_or_ge j m with hjm | hjm
    · have hle := ih hjm
      split
      · exact le_of_lt (lt_of_le_of_lt hle (by assumption))
      · exact hle
    · have hjeq : j = m := by omega
      subst hjeq
      split
      · exact le_refl _
      · exact le_of_not_gt (by assumption)

theorem argminAux_lt (l : List ℚ) (n : ℕ) (hn : 0 < n) : argminAux l n < n := by
  induction n with
  | zero => omega
  | succ m ih =>
    by_cases hm : 0 < m
    · have := ih hm
      simp only [argminAux]
      split <;> omega
    · interval_cases m
      simp [argminAux]

theorem argminAux_ge (l : List ℚ) (n : ℕ) (j : ℕ) (hj : j < n) :
    l.getD (argminAux l n) 0 ≤ l.getD j 0 := by
  induction n with
  | zero => omega
  | succ m ih =>
    simp only [argminAux]
    rcases Nat.lt_or_ge j m with hjm | hjm
    · have hle := ih hjm
      split
      · exact le_of_lt (lt_of_lt_of_le (by assumption) hle)
      · exact hle
    · have hjeq : j = m := by omega
      subst hjeq
      split
      · exact le_refl _
      · exact le_of_not_lt (by assumption)

theorem argmaxIdx_lt (l : List ℚ) (h : l ≠ []) : argmaxIdx l < l.length :=
  argmaxAux_lt l l.length (List.length_pos.mpr h)

theorem argmaxIdx_le (l : List ℚ) (j : ℕ) (hj : j < l.length) :
    l.getD j 0 ≤ l.getD (argmaxIdx l) 0 :=
  argmaxAux_le l l.length j hj

theorem argminIdx_lt (l : List ℚ) (h : l ≠ []) : argminIdx l < l.length :=
  argminAux_lt l l.length (List.length_pos.mpr h)

theorem argminIdx_ge (l : List ℚ) (j : ℕ) (hj : j < l.length) :
    l.getD (argminIdx l) 0 ≤ l.getD j 0 :=
  argminAux_ge l l.length j hj

/-- The value at `argmaxIdx` is the maximum of the list. -/
theorem getD_argmaxIdx_eq_maximum (l : List ℚ) (h : l ≠ []) :
    l.maximum = (l.getD (argmaxIdx l) 0 : ℚ) := by
  have hlt := argmaxIdx_lt l h
  rw [List.maximum_eq_coe_iff]
  constructor
  · have := List.getD_eq_getElem l 0 hlt
    rw [this]
    exact l.getElem_mem hlt
  · intro b hb
    obtain ⟨j, hj, rfl⟩ := List.mem_iff_getElem.mp hb
    rw [← List.getD_eq_getElem l 0 hj]
    exact argmaxIdx_le l j hj

/-- The value at `argminIdx` is the minimum of the list. -/
theorem getD_argminIdx_eq_minimum (l : List ℚ) (h : l ≠ []) :
    l.minimum = (l.getD (argminIdx l) 0 : ℚ) := by
  have hlt := argminIdx_lt l h
  rw [List.minimum_eq_coe_iff]
  constructor
  · have := List.getD_eq_getElem l 0 hlt
    rw [this]
    exact l.getElem_mem hlt
  · intro b hb
    obtain ⟨j, hj, rfl⟩ := List.mem_iff_getElem.mp hb
    rw [← List.getD_eq_getElem l 0 hj]
    exact argminIdx_ge l j hj

/-! ## Python sequence indexing

`pyIndex n i` resolves a (possibly negative) Python index `i` against a
sequence of length `n`: a negative index wraps by `+ n`; an index out of
range raises `IndexError`, modelled by `none`. -/

def pyIndex (n : ℕ) (i : ℤ) : Option ℕ :=
  if 0 ≤ i then (if i < (n : ℤ) then some i.toNat else none)
  else (if 0 ≤ i + (n : ℤ) then some (i + (n : ℤ)).toNat else none)

/-- Python `xs[i]` on a list of rationals. -/
def pyGet (xs : List ℚ) (i : ℤ) : Option ℚ :=
  (pyIndex xs.length i).map (fun j => xs.getD j 0)

/-! ## `VASP.get_bandgap` (src/mcu/vasp/main.py, lines 87-174)

Per-spin band-edge scan.  `bandk` is the row `self.band[spin,kpt]` of band
energies, `occk` the row `self.co_occ[spin,kpt]` of occupations.  The code
computes `co_occ_ = co_occ > 0.5`, `homo_idx = count_nonzero(occ) - 1`,
`lumo_idx = homo_idx + 1` and stores band energy and occupation at both
indices (numpy integer indexing follows Python index semantics; an
out-of-range index raises `IndexError`, modelled by `none`). -/

/-- `homo_idx` at one k-point: number of occupations strictly above `0.5`,
minus one (an integer, possibly `-1`). -/
def homoIdx (occk : List ℚ) : ℤ :=
  (occk.countP (fun x => decide (x > 1/2)) : ℤ) - 1

/-- One row of the `bandedge` array:
`((homo energy, homo occupation), (lumo energy, lumo occupation))`. -/
def bandedgeK (bandk occk : List ℚ) : Option ((ℚ × ℚ) × (ℚ × ℚ)) :=
  match pyGet bandk (homoIdx occk), pyGet occk (homoIdx occk),
        pyGet bandk (homoIdx occk + 1), pyGet occk (homoIdx occk + 1) with
  | some he, some ho, some le, some lo => some ((he, ho), (le, lo))
  | _, _, _, _ => none

/-- Run an option-valued function over a list, aborting on the first `none`
(the Python loop stops at the first exception). -/
def mapOption {α β : Type} (f : α → Option β) : List α → Option (List β)
  | [] => some []
  | x :: xs =>
    match f x, mapOption f xs with
    | some y, some ys => some (y :: ys)
    | _, _ => none

/-- Result of the per-spin part of `get_bandgap`. -/
structure GapResult where
  edges : List ((ℚ × ℚ) × (ℚ × ℚ))
  vbmIdx : ℕ
  cbmIdx : ℕ
  direct : Bool
  gap : ℚ
deriving DecidableEq

/-- The per-spin loop of `VASP.get_bandgap` (single-vasprun path): build
`bandedge`, locate `vbm_idx = argmax(bandedge[spin,:,0,0])` and
`cbm_idx = argmin(bandedge[spin,:,1,0])`, classify `direct` by index
equality, and compute the appended gap
`bandedge[spin,cbm_idx,1,0] - bandedge[spin,vbm_idx,0,0]`.
`none` models an `IndexError` inside the loop or `np.argmax` on an empty
axis. -/
def getBandgapSpin (band occ : List (List ℚ)) : Option GapResult :=
  if band.length = 0 then none
  else
    match mapOption
        (fun k => bandedgeK (band.getD k []) (occ.getD k []))
        (List.range band.length) with
    | none => none
    | some edges =>
      some ⟨edges,
            argmaxIdx (edges.map (fun e => e.1.1)),
            argminIdx (edges.map (fun e => e.2.1)),
            decide (argmaxIdx (edges.map (fun e => e.1.1)) =
                    argminIdx (edges.map (fun e => e.2.1))),
            (edges.map (fun e => e.2.1)).getD
              (argminIdx (edges.map (fun e => e.2.1))) 0 -
            (edges.map (fun e => e.1.1)).getD
              (argmaxIdx (edges.map (fun e => e.1.1))) 0⟩

/-- C1.  For every spin channel processed by `VASP.get_bandgap`, the gap is
classified as direct if and only if the index of the k-point maximizing the
per-k-point valence-band-maximum energy equals the index of the k-point
minimizing the per-k-point conduction-band-minimum energy
(`vbm_idx == cbm_idx`). -/
theorem get_bandgap_direct_iff_vbm_eq_cbm (band occ : List (List ℚ))
    (r : GapResult) (h : getBandgapSpin band occ = some r) :
    r.direct = true ↔
      argmaxIdx (r.edges.map (fun e => e.1.1)) =
        argminIdx (r.edges.map (fun e => e.2.1)) := by
  unfold getBandgapSpin at h
  split at h
  · exact Option.noConfusion h
  · split at h
    · exact Option.noConfusion h
    · injection h with h
      subst h
      simp

/-- Witness for C1 at a concrete one-k-point, two-band input. -/
theorem get_bandgap_direct_iff_vbm_eq_cbm_witness :
    (⟨[((0, 1), (2, 0))], 0, 0, true, 2 - 0⟩ : GapResult).direct = true ↔
      argmaxIdx ((⟨[((0, 1), (2, 0))], 0, 0, true, 2 - 0⟩ : GapResult).edges.map
          (fun e => e.1.1)) =
        argminIdx ((⟨[((0, 1), (2, 0))], 0, 0, true, 2 - 0⟩ : GapResult).edges.map
          (fun e => e.2.1)) :=
  get_bandgap_direct_iff_vbm_eq_cbm [[0, 2]] [[1, 0]] _ (by
    norm_num [getBandgapSpin, bandedgeK, homoIdx, pyGet, pyIndex, mapOption,
      argmaxIdx, argmaxAux, argminIdx, argminAux, List.range_succ,
      List.countP_cons, List.countP_nil, List.getD])

/-- C2.  For a single vasprun input, `VASP.get_bandgap` determines at each
k-point the highest occupied band by the occupation threshold `0.5`
(`homo_idx` = number of bands with occupation `> 0.5`, minus 1;
`lumo_idx = homo_idx + 1`: these are the definitions `homoIdx`/`bandedgeK`),
and the band gap appended to `self.bandgap` equals the minimum over
k-points of the lumo energy minus the maximum over k-points of the homo
energy. -/
theorem get_bandgap_gap_eq_min_lumo_sub_max_homo (band occ : List (List ℚ))
    (r : GapResult) (h : getBandgapSpin band occ = some r) (m1 m2 : ℚ)
    (hmin : (r.edges.map (fun e => e.2.1)).minimum = (m1 : WithBot ℚ))
    (hmax : (r.edges.map (fun e => e.1.1)).maximum = (m2 : WithBot ℚ)) :
    r.gap = m1 - m2 := by
  have hne1 : r.edges.map (fun e => e.2.1) ≠ [] := by
    intro hx
    rw [hx, List.minimum_nil] at hmin
    exact WithBot.bot_ne_coe hmin
  have hne2 : r.edges.map (fun e => e.1.1) ≠ [] := by
    intro hx
    rw [hx, List.maximum_nil] at hmax
    exact WithBot.bot_ne_coe hmax
  have e1 := getD_argminIdx_eq_minimum _ hne1
  have e2 := getD_argmaxIdx_eq_maximum _ hne2
  rw [hmin] at e1
  rw [hmax] at e2
  have e1' : m1 = (r.edges.map (fun e => e.2.1)).getD
      (argminIdx (r.edges.map (fun e => e.2.1))) 0 := WithBot.coe_inj.mp e1
  have e2' : m2 = (r.edges.map (fun e => e.1.1)).getD
      (argmaxIdx (r.edges.map (fun e => e.1.1))) 0 := WithBot.coe_inj.mp e2
  unfold getBandgapSpin at h
  split at h
  · exact Option.noConfusion h
  · split at h
    · exact Option.noConfusion h
    · injection h with h
      subst h
      rw [e1', e2']

/-- Witness for C2 at a concrete one-k-point, two-band input. -/
theorem get_bandgap_gap_eq_min_lumo_sub_max_homo_witness :
    (⟨[((0, 1), (2, 0))], 0, 0, true, 2 - 0⟩ : GapResult).gap = 2 - 0 :=
  get_bandgap_gap_eq_min_lumo_sub_max_homo [[0, 2]] [[1, 0]] _ (by
      norm_num [getBandgapSpin, bandedgeK, homoIdx, pyGet, pyIndex, mapOption,
        argmaxIdx, argmaxAux, argminIdx, argminAux, List.range_succ,
        List.countP_cons, List.countP_nil, List.getD])
    2 0 (by rfl) (by rfl)

/-! ## Multiple-vasprun concatenation
(src/mcu/vasp/main.py, `get_bandgap` lines 117-140, `_generate_band`
lines 238-253)

Each run contributes `kpts[nonzero:]` and `band[nonzero:]` where
`nonzero = np.count_nonzero(weight)`; the rows are `vstack`-ed onto an
initial zero row which is removed at the end (`bands[1:]`). -/

/-- Per-run data read from one vasprun.xml: k-point rows, band-energy rows
(for the chosen spin) and k-point weights. -/
structure RunData where
  kpts : List (List ℚ)
  band : List (List ℚ)
  weights : List ℚ

/-- `np.count_nonzero` over a weight vector. -/
def countNonzero (w : List ℚ) : ℕ := w.countP (fun x => decide (x ≠ 0))

/-- The `bands` accumulation loop of the multiple-vasprun path of
`VASP.get_bandgap`: start from one zero row, `vstack` each run's
`band[nonzero:]`, finally drop the zero row (`bands[1:]`). -/
def combineBandsGap (nbands : ℕ) (runs : List RunData) : List (List ℚ) :=
  (runs.foldl
    (fun acc r => acc ++ r.band.drop (countNonzero r.weights))
    [List.replicate nbands (0 : ℚ)]).drop 1

/-- The `kptss` accumulation loop (shared shape in `get_bandgap` and
`_generate_band`): start from one zero 3-vector, `vstack` each run's
`kpts[nonzero:]`, finally drop the zero row. -/
def combineKpts (runs : List RunData) : List (List ℚ) :=
  (runs.foldl
    (fun acc r => acc ++ r.kpts.drop (countNonzero r.weights))
    [[0, 0, 0]]).drop 1

/-- The `bands` accumulation loop of the multiple-vasprun path of
`VASP._generate_band`: like `combineBandsGap` but each run's rows are
shifted by that run's Fermi level (`band = band - efermi[i]`). -/
def combineBandsGen (nbands : ℕ) (runs : List RunData) (efermi : List ℚ) :
    List (List ℚ) :=
  (runs.enum.foldl
    (fun acc ir =>
      acc ++ (ir.2.band.drop (countNonzero ir.2.weights)).map
        (fun row => row.map (fun x => x - efermi.getD ir.1 0)))
    [List.replicate nbands (0 : ℚ)]).drop 1

theorem foldl_append_eq_flatMap {α β : Type} (f : α → List β)
    (init : List β) (l : List α) :
    l.foldl (fun acc x => acc ++ f x) init = init ++ l.flatMap f := by
  induction l generalizing init with
  | nil => simp
  | cons x xs ih => simp [List.foldl_cons, ih, List.append_assoc]

/-- C9.  In the multiple-vasprun paths of `VASP.get_bandgap` and
`VASP._generate_band`, each run contributes exactly the band rows and
k-points from index `count_nonzero(weights)` onward, concatenated in run
order. -/
theorem multi_vasprun_drops_nonzero_weight_prefix (nbands : ℕ)
    (runs : List RunData) (efermi : List ℚ) :
    combineBandsGap nbands runs =
      runs.flatMap (fun r => r.band.drop (countNonzero r.weights)) ∧
    combineKpts runs =
      runs.flatMap (fun r => r.kpts.drop (countNonzero r.weights)) ∧
    combineBandsGen nbands runs efermi =
      runs.enum.flatMap (fun ir =>
        (ir.2.band.drop (countNonzero ir.2.weights)).map
          (fun row => row.map (fun x => x - efermi.getD ir.1 0))) := by
  refine ⟨?_, ?_, ?_⟩
  · rw [combineBandsGap, foldl_append_eq_flatMap]
    simp
  · rw [combineKpts, foldl_append_eq_flatMap]
    simp
  · rw [combineBandsGen, foldl_append_eq_flatMap]
    simp

/-! ## `R_r` (src/mcu/wannier90/pywannier90_vasp.py, lines 111-124)

Radial part of the trial orbitals.  The Python keyword `r` is the radial
quantum number used for dispatch: `if r == 1: ... elif r == 2: ... else:`.
`zona**(3/2)` is a float power, modelled by `Real.rpow`. -/

noncomputable def R_r (r_norm : ℝ) (r : ℤ) (zona : ℝ) : ℝ :=
  if r = 1 then
    2 * zona ^ ((3 : ℝ) / 2) * Real.exp (-zona * r_norm)
  else if r = 2 then
    1 / 2 / Real.sqrt 2 * zona ^ ((3 : ℝ) / 2) * (2 - zona * r_norm) *
      Real.exp (-zona * r_norm / 2)
  else
    Real.sqrt (4 / 27) * zona ^ ((3 : ℝ) / 2) *
      (1 - 2 * zona * r_norm / 3 + 2 * zona ^ 2 * r_norm ^ 2 / 27) *
      Real.exp (-zona * r_norm / 3)

/-- Spec-side definition: the hydrogen-like radial functions for
`n = 1, 2, 3` (Table 3.3 of the Wannier90 User Guide), indexed by the
principal quantum number. -/
noncomputable def hydrogenR (n : ℕ) (r_norm zona : ℝ) : ℝ :=
  match n with
  | 2 =>
    1 / 2 / Real.sqrt 2 * zona ^ ((3 : ℝ) / 2) * (2 - zona * r_norm) *
      Real.exp (-zona * r_norm / 2)
  | 3 =>
    Real.sqrt (4 / 27) * zona ^ ((3 : ℝ) / 2) *
      (1 - 2 * zona * r_norm / 3 + 2 * zona ^ 2 * r_norm ^ 2 / 27) *
      Real.exp (-zona * r_norm / 3)
  | _ => 2 * zona ^ ((3 : ℝ) / 2) * Real.exp (-zona * r_norm)

/-- C10.  `R_r` is total in its radial index: `r = 1` gives the `n = 1`
hydrogen-like radial function `2 * zona^(3/2) * exp(-zona * r_norm)`,
`r = 2` the `n = 2` function, and every other `r` (including invalid
values such as `0` or `4`) silently gives the `n = 3` function instead of
raising an error. -/
theorem R_r_total_radial_dispatch (r_norm zona : ℝ) :
    R_r r_norm 1 zona = hydrogenR 1 r_norm zona ∧
    R_r r_norm 2 zona = hydrogenR 2 r_norm zona ∧
    (∀ r : ℤ, r ≠ 1 → r ≠ 2 → R_r r_norm r zona = hydrogenR 3 r_norm zona) ∧
    R_r r_norm 0 zona = hydrogenR 3 r_norm zona ∧
    R_r r_norm 4 zona = hydrogenR 3 r_norm zona := by
  refine ⟨rfl, rfl, ?_, rfl, rfl⟩
  intro r h1 h2
  rw [R_r, if_neg h1, if_neg h2]
  rfl

/-- Witness for C10: the invalid radial index `5` is sent to the `n = 3`
function. -/
theorem R_r_total_radial_dispatch_witness :
    R_r 0 5 1 = hydrogenR 3 0 1 :=
  (R_r_total_radial_dispatch 0 1).2.2.1 5 (by decide) (by decide)

/-! ## `theta` and `theta_lmr`
(src/mcu/wannier90/pywannier90_vasp.py, lines 126-262)

`theta` dispatches on the orbital name.  `theta_lmr` is the finite case
table of Tables 3.1/3.2 of the Wannier90 User Guide, guarded by two
assertions on `l` and `mr`.  `theta_lmr` returns `Option ℝ`: `none` models
a raised exception — an `AssertionError`, the `UnboundLocalError` at
`return theta_lmr` when no branch assigned the local variable, or the
`TypeError` in the `(l = -4, mr = 4)` and `(l = -4, mr = 5)` branches,
which read `1/np.sqrt(2) (theta(...) + theta(...))` with a missing `*` and
therefore call a float.  `theta` itself is total here because `theta_lmr`
only ever passes the sixteen recognized literal names. -/

noncomputable def theta (func : String) (cost phi : ℝ) : ℝ :=
  if func = "s" then 1 / Real.sqrt (4 * Real.pi)
  else if func = "pz" then Real.sqrt (3 / 4 / Real.pi) * cost
  else if func = "px" then
    Real.sqrt (3 / 4 / Real.pi) * Real.sqrt (1 - cost ^ 2) * Real.cos phi
  else if func = "py" then
    Real.sqrt (3 / 4 / Real.pi) * Real.sqrt (1 - cost ^ 2) * Real.sin phi
  else if func = "dz2" then
    Real.sqrt (5 / 16 / Real.pi) * (3 * cost ^ 2 - 1)
  else if func = "dxz" then
    Real.sqrt (15 / 4 / Real.pi) * Real.sqrt (1 - cost ^ 2) * cost *
      Real.cos phi
  else if func = "dyz" then
    Real.sqrt (15 / 4 / Real.pi) * Real.sqrt (1 - cost ^ 2) * cost *
      Real.sin phi
  else if func = "dx2-y2" then
    Real.sqrt (15 / 16 / Real.pi) * Real.sqrt (1 - cost ^ 2) ^ 2 *
      Real.cos (2 * phi)
  else if func = "pxy" then
    Real.sqrt (15 / 16 / Real.pi) * Real.sqrt (1 - cost ^ 2) ^ 2 *
      Real.sin (2 * phi)
  else if func = "fz3" then
    Real.sqrt 7 / 4 / Real.sqrt Real.pi * (5 * cost ^ 3 - 3 * cost)
  else if func = "fxz2" then
    Real.sqrt 21 / 4 / Real.sqrt (2 * Real.pi) * (5 * cost ^ 2 - 1) *
      Real.sqrt (1 - cost ^ 2) * Real.cos phi
  else if func = "fyz2" then
    Real.sqrt 21 / 4 / Real.sqrt (2 * Real.pi) * (5 * cost ^ 2 - 1) *
      Real.sqrt (1 - cost ^ 2) * Real.sin phi
  else if func = "fz(x2-y2)" then
    Real.sqrt 105 / 4 / Real.sqrt Real.pi * Real.sqrt (1 - cost ^ 2) ^ 2 *
      cost * Real.cos (2 * phi)
  else if func = "fxyz" then
    Real.sqrt 105 / 4 / Real.sqrt Real.pi * Real.sqrt (1 - cost ^ 2) ^ 2 *
      cost * Real.sin (2 * phi)
  else if func = "fx(x2-3y2)" then
    Real.sqrt 35 / 4 / Real.sqrt (2 * Real.pi) * Real.sqrt (1 - cost ^ 2) ^ 3 *
      (Real.cos phi ^ 2 - 3 * Real.sin phi ^ 2) * Real.cos phi
  else if func = "fy(3x2-y2)" then
    Real.sqrt 35 / 4 / Real.sqrt (2 * Real.pi) * Real.sqrt (1 - cost ^ 2) ^ 3 *
      (3 * Real.cos phi ^ 2 - Real.sin phi ^ 2) * Real.sin phi
  else 0

noncomputable def theta_lmr (l mr : ℤ) (cost phi : ℝ) : Option ℝ :=
  if l ∉ ([0, 1, 2, 3, -1, -2, -3, -4, -5] : List ℤ) then none
  else if mr ∉ ([1, 2, 3, 4, 5, 6, 7] : List ℤ) then none
  else if l = 0 then some (theta "s" cost phi)
  else if l = 1 ∧ mr = 1 then some (theta "pz" cost phi)
  else if l = 1 ∧ mr = 2 then some (theta "px" cost phi)
  else if l = 1 ∧ mr = 3 then some (theta "py" cost phi)
  else if l = 2 ∧ mr = 1 then some (theta "dz2" cost phi)
  else if l = 2 ∧ mr = 2 then some (theta "dxz" cost phi)
  else if l = 2 ∧ mr = 3 then some (theta "dyz" cost phi)
  else if l = 2 ∧ mr = 4 then some (theta "dx2-y2" cost phi)
  else if l = 2 ∧ mr = 5 then some (theta "pxy" cost phi)
  else if l = 3 ∧ mr = 1 then some (theta "fz3" cost phi)
  else if l = 3 ∧ mr = 2 then some (theta "fxz2" cost phi)
  else if l = 3 ∧ mr = 3 then some (theta "fyz2" cost phi)
  else if l = 3 ∧ mr = 4 then some (theta "fz(x2-y2)" cost phi)
  else if l = 3 ∧ mr = 5 then some (theta "fxyz" cost phi)
  else if l = 3 ∧ mr = 6 then some (theta "fx(x2-3y2)" cost phi)
  else if l = 3 ∧ mr = 7 then some (theta "fy(3x2-y2)" cost phi)
  else if l = -1 ∧ mr = 1 then
    some (1 / Real.sqrt 2 * (theta "s" cost phi + theta "px" cost phi))
  else if l = -1 ∧ mr = 2 then
    some (1 / Real.sqrt 2 * (theta "s" cost phi - theta "px" cost phi))
  else if l = -2 ∧ mr = 1 then
    some (1 / Real.sqrt 3 * theta "s" cost phi -
      1 / Real.sqrt 6 * theta "px" cost phi +
      1 / Real.sqrt 2 * theta "py" cost phi)
  else if l = -2 ∧ mr = 2 then
    some (1 / Real.sqrt 3 * theta "s" cost phi -
      1 / Real.sqrt 6 * theta "px" cost phi -
      1 / Real.sqrt 2 * theta "py" cost phi)
  else if l = -2 ∧ mr = 3 then
    some (1 / Real.sqrt 3 * theta "s" cost phi +
      2 / Real.sqrt 6 * theta "px" cost phi)
  else if l = -3 ∧ mr = 1 then
    some (1 / 2 * (theta "s" cost phi + theta "px" cost phi +
      theta "py" cost phi + theta "pz" cost phi))
  else if l = -3 ∧ mr = 2 then
    some (1 / 2 * (theta "s" cost phi + theta "px" cost phi -
      theta "py" cost phi - theta "pz" cost phi))
  else if l = -3 ∧ mr = 3 then
    some (1 / 2 * (theta "s" cost phi - theta "px" cost phi +
      theta "py" cost phi - theta "pz" cost phi))
  else if l = -3 ∧ mr = 4 then
    some (1 / 2 * (theta "s" cost phi - theta "px" cost phi -
      theta "py" cost phi + theta "pz" cost phi))
  else if l = -4 ∧ mr = 1 then
    some (1 / Real.sqrt 3 * theta "s" cost phi -
      1 / Real.sqrt 6 * theta "px" cost phi +
      1 / Real.sqrt 2 * theta "py" cost phi)
  else if l = -4 ∧ mr = 2 then
    some (1 / Real.sqrt 3 * theta "s" cost phi -
      1 / Real.sqrt 6 * theta "px" cost phi -
      1 / Real.sqrt 2 * theta "py" cost phi)
  else if l = -4 ∧ mr = 3 then
    some (1 / Real.sqrt 3 * theta "s" cost phi +
      2 / Real.sqrt 6 * theta "px" cost phi)
  else if l = -4 ∧ mr = 4 then none
  else if l = -4 ∧ mr = 5 then none
  else if l = -5 ∧ mr = 1 then
    some (1 / Real.sqrt 6 * theta "s" cost phi -
      1 / Real.sqrt 2 * theta "px" cost phi -
      1 / Real.sqrt 12 * theta "dz2" cost phi +
      1 / 2 * theta "dx2-y2" cost phi)
  else if l = -5 ∧ mr = 2 then
    some (1 / Real.sqrt 6 * theta "s" cost phi +
      1 / Real.sqrt 2 * theta "px" cost phi -
      1 / Real.sqrt 12 * theta "dz2" cost phi +
      1 / 2 * theta "dx2-y2" cost phi)
  else if l = -5 ∧ mr = 3 then
    some (1 / Real.sqrt 6 * theta "s" cost phi -
      1 / Real.sqrt 2 * theta "py" cost phi -
      1 / Real.sqrt 12 * theta "dz2" cost phi -
      1 / 2 * theta "dx2-y2" cost phi)
  else if l = -5 ∧ mr = 4 then
    some (1 / Real.sqrt 6 * theta "s" cost phi +
      1 / Real.sqrt 2 * theta "py" cost phi -
      1 / Real.sqrt 12 * theta "dz2" cost phi -
      1 / 2 * theta "dx2-y2" cost phi)
  else if l = -5 ∧ mr = 5 then
    some (1 / Real.sqrt 6 * theta "s" cost phi -
      1 / Real.sqrt 2 * theta "pz" cost phi +
      1 / Real.sqrt 3 * theta "dz2" cost phi)
  else if l = -5 ∧ mr = 6 then
    some (1 / Real.sqrt 6 * theta "s" cost phi +
      1 / Real.sqrt 2 * theta "pz" cost phi +
      1 / Real.sqrt 3 * theta "dz2" cost phi)
  else none

/-- The `(l, mr)` pairs defined by Tables 3.1 and 3.2 of the Wannier90
User Guide. -/
def tableOk (l mr : ℤ) : Bool :=
  decide ((l = 0 ∧ mr = 1) ∨ (l = 1 ∧ 1 ≤ mr ∧ mr ≤ 3) ∨
    (l = 2 ∧ 1 ≤ mr ∧ mr ≤ 5) ∨ (l = 3 ∧ 1 ≤ mr ∧ mr ≤ 7) ∨
    (l = -1 ∧ 1 ≤ mr ∧ mr ≤ 2) ∨ (l = -2 ∧ 1 ≤ mr ∧ mr ≤ 3) ∨
    (l = -3 ∧ 1 ≤ mr ∧ mr ≤ 4) ∨ (l = -4 ∧ 1 ≤ mr ∧ mr ≤ 5) ∨
    (l = -5 ∧ 1 ≤ mr ∧ mr ≤ 6))

/-- The `(l, mr)` pairs for which `theta_lmr` returns a value: the code
takes the `l = 0` branch for every `mr`, has no branch at all for pairs
past each `l`-block (for example `(1, 4)`), and raises `TypeError` in the
two broken `l = -4` branches. -/
def codeOk (l mr : ℤ) : Bool :=
  decide (l = 0 ∨ (l = 1 ∧ 1 ≤ mr ∧ mr ≤ 3) ∨
    (l = 2 ∧ 1 ≤ mr ∧ mr ≤ 5) ∨ (l = 3 ∧ 1 ≤ mr ∧ mr ≤ 7) ∨
    (l = -1 ∧ 1 ≤ mr ∧ mr ≤ 2) ∨ (l = -2 ∧ 1 ≤ mr ∧ mr ≤ 3) ∨
    (l = -3 ∧ 1 ≤ mr ∧ mr ≤ 4) ∨ (l = -4 ∧ 1 ≤ mr ∧ mr ≤ 3) ∨
    (l = -5 ∧ 1 ≤ mr ∧ mr ≤ 6))

/-- Spec-side definition, modelled on Tables 3.1 and 3.2 of the Wannier90
User Guide (the tables the spec and claim refer to): the real angular part
for each `(l, mr)` pair the tables define, `none` outside the tables.  The
`(−4, 4)` and `(−4, 5)` rows carry the intended values
`1/√2 (pz + dz2)` and `1/√2 (−pz + dz2)`. -/
noncomputable def thetaTable (l mr : ℤ) (cost phi : ℝ) : Option ℝ :=
  if l = 0 ∧ mr = 1 then some (theta "s" cost phi)
  else if l = 1 ∧ mr = 1 then some (theta "pz" cost phi)
  else if l = 1 ∧ mr = 2 then some (theta "px" cost phi)
  else if l = 1 ∧ mr = 3 then some (theta "py" cost phi)
  else if l = 2 ∧ mr = 1 then some (theta "dz2" cost phi)
  else if l = 2 ∧ mr = 2 then some (theta "dxz" cost phi)
  else if l = 2 ∧ mr = 3 then some (theta "dyz" cost phi)
  else if l = 2 ∧ mr = 4 then some (theta "dx2-y2" cost phi)
  else if l = 2 ∧ mr = 5 then some (theta "pxy" cost phi)
  else if l = 3 ∧ mr = 1 then some (theta "fz3" cost phi)
  else if l = 3 ∧ mr = 2 then some (theta "fxz2" cost phi)
  else if l = 3 ∧ mr = 3 then some (theta "fyz2" cost phi)
  else if l = 3 ∧ mr = 4 then some (theta "fz(x2-y2)" cost phi)
  else if l = 3 ∧ mr = 5 then some (theta "fxyz" cost phi)
  else if l = 3 ∧ mr = 6 then some (theta "fx(x2-3y2)" cost phi)
  else if l = 3 ∧ mr = 7 then some (theta "fy(3x2-y2)" cost phi)
  else if l = -1 ∧ mr = 1 then
    some (1 / Real.sqrt 2 * (theta "s" cost phi + theta "px" cost phi))
  else if l = -1 ∧ mr = 2 then
    some (1 / Real.sqrt 2 * (theta "s" cost phi - theta "px" cost phi))
  else if l = -2 ∧ mr = 1 then
    some (1 / Real.sqrt 3 * theta "s" cost phi -
      1 / Real.sqrt 6 * theta "px" cost phi +
      1 / Real.sqrt 2 * theta "py" cost phi)
  else if l = -2 ∧ mr = 2 then
    some (1 / Real.sqrt 3 * theta "s" cost phi -
      1 / Real.sqrt 6 * theta "px" cost phi -
      1 / Real.sqrt 2 * theta "py" cost phi)
  else if l = -2 ∧ mr = 3 then
    some (1 / Real.sqrt 3 * theta "s" cost phi +
      2 / Real.sqrt 6 * theta "px" cost phi)
  else if l = -3 ∧ mr = 1 then
    some (1 / 2 * (theta "s" cost phi + theta "px" cost phi +
      theta "py" cost phi + theta "pz" cost phi))
  else if l = -3 ∧ mr = 2 then
    some (1 / 2 * (theta "s" cost phi + theta "px" cost phi -
      theta "py" cost phi - theta "pz" cost phi))
  else if l = -3 ∧ mr = 3 then
    some (1 / 2 * (theta "s" cost phi - theta "px" cost phi +
      theta "py" cost phi - theta "pz" cost phi))
  else if l = -3 ∧ mr = 4 then
    some (1 / 2 * (theta "s" cost phi - theta "px" cost phi -
      theta "py" cost phi + theta "pz" cost phi))
  else if l = -4 ∧ mr = 1 then
    some (1 / Real.sqrt 3 * theta "s" cost phi -
      1 / Real.sqrt 6 * theta "px" cost phi +
      1 / Real.sqrt 2 * theta "py" cost phi)
  else if l = -4 ∧ mr = 2 then
    some (1 / Real.sqrt 3 * theta "s" cost phi -
      1 / Real.sqrt 6 * theta "px" cost phi -
      1 / Real.sqrt 2 * theta "py" cost phi)
  else if l = -4 ∧ mr = 3 then
    some (1 / Real.sqrt 3 * theta "s" cost phi +
      2 / Real.sqrt 6 * theta "px" cost phi)
  else if l = -4 ∧ mr = 4 then
    some (1 / Real.sqrt 2 * (theta "pz" cost phi + theta "dz2" cost phi))
  else if l = -4 ∧ mr = 5 then
    some (1 / Real.sqrt 2 * (-theta "pz" cost phi + theta "dz2" cost phi))
  else if l = -5 ∧ mr = 1 then
    some (1 / Real.sqrt 6 * theta "s" cost phi -
      1 / Real.sqrt 2 * theta "px" cost phi -
      1 / Real.sqrt 12 * theta "dz2" cost phi +
      1 / 2 * theta "dx2-y2" cost phi)
  else if l = -5 ∧ mr = 2 then
    some (1 / Real.sqrt 6 * theta "s" cost phi +
      1 / Real.sqrt 2 * theta "px" cost phi -
      1 / Real.sqrt 12 * theta "dz2" cost phi +
      1 / 2 * theta "dx2-y2" cost phi)
  else if l = -5 ∧ mr = 3 then
    some (1 / Real.sqrt 6 * theta "s" cost phi -
      1 / Real.sqrt 2 * theta "py" cost phi -
      1 / Real.sqrt 12 * theta "dz2" cost phi -
      1 / 2 * theta "dx2-y2" cost phi)
  else if l = -5 ∧ mr = 4 then
    some (1 / Real.sqrt 6 * theta "s" cost phi +
      1 / Real.sqrt 2 * theta "py" cost phi -
      1 / Real.sqrt 12 * theta "dz2" cost phi -
      1 / 2 * theta "dx2-y2" cost phi)
  else if l = -5 ∧ mr = 5 then
    some (1 / Real.sqrt 6 * theta "s" cost phi -
      1 / Real.sqrt 2 * theta "pz" cost phi +
      1 / Real.sqrt 3 * theta "dz2" cost phi)
  else if l = -5 ∧ mr = 6 then
    some (1 / Real.sqrt 6 * theta "s" cost phi +
      1 / Real.sqrt 2 * theta "pz" cost phi +
      1 / Real.sqrt 3 * theta "dz2" cost phi)
  else none

/-- C3 as stated is false: `(l, mr) = (1, 4)` passes both assertions but
reaches no branch of the case table (`UnboundLocalError`); `(−4, 4)`
reaches a branch whose body has a missing `*` and raises `TypeError`. -/
theorem theta_lmr_claim_counterexample :
    (1 : ℤ) ∈ ([0, 1, 2, 3, -1, -2, -3, -4, -5] : List ℤ) ∧
    (4 : ℤ) ∈ ([1, 2, 3, 4, 5, 6, 7] : List ℤ) ∧
    theta_lmr 1 4 0 0 = none ∧
    theta_lmr (-4) 4 0 0 = none ∧
    thetaTable (-4) 4 0 0 ≠ none :=
  ⟨by decide, by decide, rfl, rfl, fun h => Option.noConfusion h⟩

/-- C3 amended.  For `l` and `mr` in the asserted ranges, `theta_lmr`
returns a value exactly on the pairs of `codeOk` (the table pairs, minus
the two broken `l = −4` branches, plus `l = 0` with any `mr`); and on
every table pair other than `(−4, 4)` and `(−4, 5)` the returned value is
the Table 3.1/3.2 entry. -/
theorem theta_lmr_matches_table_on_codeOk (l mr : ℤ)
    (hl : l ∈ ([0, 1, 2, 3, -1, -2, -3, -4, -5] : List ℤ))
    (hm : mr ∈ ([1, 2, 3, 4, 5, 6, 7] : List ℤ)) (cost phi : ℝ) :
    (theta_lmr l mr cost phi).isSome = codeOk l mr ∧
    (tableOk l mr = true → ¬(l = -4 ∧ (mr = 4 ∨ mr = 5)) →
      theta_lmr l mr cost phi = thetaTable l mr cost phi) := by
  fin_cases hl <;> fin_cases hm <;>
    refine ⟨rfl, fun h1 h2 => ?_⟩ <;>
    first
      | rfl
      | exact absurd h1 (by decide)
      | exact absurd (by decide) h2

/-- Witness for the amended C3 at `(l, mr) = (2, 5)`. -/
theorem theta_lmr_matches_table_on_codeOk_witness :
    (theta_lmr 2 5 0 0).isSome = codeOk 2 5 ∧
    (tableOk 2 5 = true → ¬((2 : ℤ) = -4 ∧ ((5 : ℤ) = 4 ∨ (5 : ℤ) = 5)) →
      theta_lmr 2 5 0 0 = thetaTable 2 5 0 0) :=
  theta_lmr_matches_table_on_codeOk 2 5 (by decide) (by decide) 0 0

/-! ## `g_r` zero-radius nudge
(src/mcu/wannier90/pywannier90_vasp.py, lines 281-299)

With the default axes `x_axis = [1,0,0]`, `z_axis = [0,0,1]` the
`transform` matrix is the identity, so the radius of a grid point is the
plain Euclidean distance to the site.  The source compares
`r_norm < 1e-8` and then divides by `r_norm`; we track squared norms,
which is equivalent (`r_norm < 1e-8 ↔ r_norm² < 1e-16` and
`r_norm = 0 ↔ r_norm² = 0` since `r_norm ≥ 0`), and stays inside ℚ.
`grids_coor - site - 1e-5` subtracts the scalar `1e-5` from every
coordinate. -/

/-- 3-vector of exact coordinates. -/
abbrev Vec3 := ℚ × ℚ × ℚ

def vsub (a b : Vec3) : Vec3 := (a.1 - b.1, a.2.1 - b.2.1, a.2.2 - b.2.2)

/-- Subtract a scalar from every coordinate (numpy broadcasting in
`grids_coor - site - 1e-5`). -/
def vsubScalar (a : Vec3) (s : ℚ) : Vec3 := (a.1 - s, a.2.1 - s, a.2.2 - s)

def normSq (v : Vec3) : ℚ := v.1 ^ 2 + v.2.1 ^ 2 + v.2.2 ^ 2

/-- `(1e-8)²`: the squared zero-radius threshold of `g_r`. -/
def eps8sq : ℚ := (1 / 10 ^ 8) ^ 2

/-- `1e-5`: the nudge `g_r` applies to the site. -/
def nudge : ℚ := 1 / 10 ^ 5

/-- The squared radii `g_r` ends up dividing by: the distances to the
site, recomputed once from the nudged site if any distance is below
`1e-8`, with no re-check. -/
def g_r_normSq (grids : List Vec3) (site : Vec3) : List ℚ :=
  if (grids.map (fun g => normSq (vsub g site))).any
      (fun q => decide (q < eps8sq)) then
    grids.map (fun g => normSq (vsubScalar (vsub g site) nudge))
  else
    grids.map (fun g => normSq (vsub g site))

/-- `g_r` performs no division by zero iff every radius it divides by is
nonzero. -/
def g_r_noDivZero (grids : List Vec3) (site : Vec3) : Bool :=
  (g_r_normSq grids site).all (fun q => decide (q ≠ 0))

/-- C4 as stated is false: a grid holding both the site itself and the
site shifted by `1e-5` in each coordinate triggers the nudge, after which
the second grid point sits exactly at the nudged site, so a recomputed
radius is zero and the division by `r_norm` still divides by zero. -/
theorem g_r_nudge_counterexample :
    g_r_noDivZero [(0, 0, 0), (1 / 10 ^ 5, 1 / 10 ^ 5, 1 / 10 ^ 5)]
      (0, 0, 0) = false := by
  norm_num [g_r_noDivZero, g_r_normSq, normSq, vsub, vsubScalar, eps8sq,
    nudge, List.any, List.all]

/-- A sum of three rational squares vanishes only at the zero vector. -/
theorem normSq_eq_zero_iff (v : Vec3) :
    normSq v = 0 ↔ v = ((0 : ℚ), (0 : ℚ), (0 : ℚ)) := by
  obtain ⟨x, y, z⟩ := v
  constructor
  · intro hz
    unfold normSq at hz
    have a1 := sq_nonneg x
    have a2 := sq_nonneg y
    have a3 := sq_nonneg z
    have e1 : x ^ 2 = 0 := le_antisymm (by nlinarith) a1
    have e2 : y ^ 2 = 0 := le_antisymm (by nlinarith) a2
    have e3 : z ^ 2 = 0 := le_antisymm (by nlinarith) a3
    have f1 : x = 0 := sq_eq_zero_iff.mp e1
    have f2 : y = 0 := sq_eq_zero_iff.mp e2
    have f3 : z = 0 := sq_eq_zero_iff.mp e3
    simp [f1, f2, f3]
  · intro hv
    rw [hv]
    simp [normSq]

/-- C4 amended.  `g_r` never divides by a zero radius provided no grid
point coincides with the nudged site (the site shifted by `1e-5` in each
coordinate): distances that escape the nudge are at least `1e-8`, and
after the nudge the hypothesis keeps every recomputed radius nonzero. -/
theorem g_r_nudged_radii_nonzero (grids : List Vec3) (site : Vec3)
    (h : ∀ g ∈ grids,
      vsubScalar (vsub g site) nudge ≠ ((0 : ℚ), (0 : ℚ), (0 : ℚ))) :
    g_r_noDivZero grids site = true := by
  have key : ∀ q ∈ g_r_normSq grids site, q ≠ 0 := by
    intro q hq
    unfold g_r_normSq at hq
    by_cases hc : (grids.map (fun g => normSq (vsub g site))).any
        (fun q => decide (q < eps8sq)) = true
    · rw [if_pos hc] at hq
      obtain ⟨g, hg, rfl⟩ := List.mem_map.mp hq
      exact fun hz => (h g hg) ((normSq_eq_zero_iff _).mp hz)
    · rw [if_neg hc] at hq
      obtain ⟨g, hg, rfl⟩ := List.mem_map.mp hq
      have hnlt : ¬ (normSq (vsub g site) < eps8sq) := by
        intro hlt
        apply hc
        rw [List.any_eq_true]
        exact ⟨normSq (vsub g site), List.mem_map_of_mem _ hg,
          by simpa using hlt⟩
      have hpos : (0 : ℚ) < eps8sq := by norm_num [eps8sq]
      intro hz
      rw [hz] at hnlt
      exact hnlt hpos
  unfold g_r_noDivZero
  rw [List.all_eq_true]
  intro q hq
  simpa using key q hq

/-- Witness for the amended C4: a one-point grid away from the site. -/
theorem g_r_nudged_radii_nonzero_witness :
    g_r_noDivZero [(1, 0, 0)] (0, 0, 0) = true :=
  g_r_nudged_radii_nonzero [(1, 0, 0)] (0, 0, 0) (by
    intro g hg
    simp only [List.mem_singleton] at hg
    subst hg
    norm_num [vsub, vsubScalar, nudge, Prod.ext_iff])

/-! ## `.amn` export and read-back
(src/mcu/wannier90/pywannier90_vasp.py, `W90.export_AME` lines 651-658,
`W90.read_A_mat` lines 512-530)

`export_AME` writes one data line per `(k_id, ith_wann, band)` triple, with
`k_id` outermost and `band` innermost; a line's whitespace-split fields are
`[band+1, ith_wann+1, k_id+1, Re A, Im A]` (so the real part is column 4
and the imaginary part column 5, i.e. indices 3 and 4 of the split).
`read_A_mat` reads `lines[i*num_wann*num_bands + j*num_bands + k][3]` and
`[4]` into `A[i,j,k]`. -/

/-- The whitespace-split fields of one `.amn` data line written by
`export_AME` (integer columns represented in ℚ alongside the two float
columns, as a uniform field list). -/
def amnLine (A : ℕ → ℕ → ℕ → ℚ × ℚ) (k w b : ℕ) : List ℚ :=
  [(b : ℚ) + 1, (w : ℚ) + 1, (k : ℚ) + 1, (A k w b).1, (A k w b).2]

/-- The data lines of `wannier90.amn` in the order `export_AME` writes
them: `k_id` outermost, `ith_wann` next, `band` innermost. -/
def export_AME_amn (nk nw nb : ℕ) (A : ℕ → ℕ → ℕ → ℚ × ℚ) :
    List (List ℚ) :=
  (List.range nk).flatMap (fun k =>
    (List.range nw).flatMap (fun w =>
      (List.range nb).map (fun b => amnLine A k w b)))

/-- `W90.read_A_mat`: entry `A[i,j,k]` is read from columns 4 and 5 of
line `i*num_wann*num_bands + j*num_bands + k`. -/
def read_A_mat (nw nb : ℕ) (lines : List (List ℚ)) (i j k : ℕ) : ℚ × ℚ :=
  ((lines.getD (i * nw * nb + j * nb + k) []).getD 3 0,
   (lines.getD (i * nw * nb + j * nb + k) []).getD 4 0)

theorem length_flatMap_const {β : Type} (n m : ℕ) (f : ℕ → List β)
    (hf : ∀ i, (f i).length = m) :
    ((List.range n).flatMap f).length = n * m := by
  induction n with
  | zero => simp
  | succ p ih =>
    rw [List.range_succ, List.flatMap_append]
    simp only [List.flatMap_cons, List.flatMap_nil, List.append_nil,
      List.length_append, ih, hf]
    ring

theorem getD_flatMap_range {β : Type} (n m : ℕ) (f : ℕ → List β)
    (hf : ∀ i, (f i).length = m) (a b : ℕ) (ha : a < n) (hb : b < m)
    (d : β) :
    ((List.range n).flatMap f).getD (a * m + b) d = (f a).getD b d := by
  induction n with
  | zero => omega
  | succ p ih =>
    rw [List.range_succ, List.flatMap_append]
    simp only [List.flatMap_cons, List.flatMap_nil, List.append_nil]
    rcases Nat.lt_or_ge a p with hap | hap
    · have hlt : a * m + b < ((List.range p).flatMap f).length := by
        rw [length_flatMap_const p m f hf]
        have h1 : a * m + b < (a + 1) * m := by
          have : (a + 1) * m = a * m + m := by ring
          omega
        have h2 : (a + 1) * m ≤ p * m := Nat.mul_le_mul_right m hap
        omega
      rw [List.getD_append _ _ _ _ hlt]
      exact ih hap
    · have hap' : a = p := by omega
      subst hap'
      have hge : ((List.range a).flatMap f).length ≤ a * m + b := by
        rw [length_flatMap_const a m f hf]
        omega
      rw [List.getD_append_right _ _ _ _ hge, length_flatMap_const a m f hf]
      congr 1
      omega

/-- C5.  The `.amn` format written by `W90.export_AME` and read by
`W90.read_A_mat` use the same index ordering (k-point outermost, wannier
orbital next, band innermost; real part in column 4, imaginary part in
column 5), so reading a file whose data lines were written by
`export_AME` recovers exactly the projection matrix that was written. -/
theorem amn_round_trip (nk nw nb : ℕ) (A : ℕ → ℕ → ℕ → ℚ × ℚ)
    (i j k : ℕ) (hi : i < nk) (hj : j < nw) (hk : k < nb) :
    read_A_mat nw nb (export_AME_amn nk nw nb A) i j k = A i j k := by
  have hf1 : ∀ x, ((List.range nw).flatMap
      (fun w => (List.range nb).map (fun b => amnLine A x w b))).length =
      nw * nb := by
    intro x
    exact length_flatMap_const nw nb _ (fun w => by simp)
  have idx : i * nw * nb + j * nb + k = i * (nw * nb) + (j * nb + k) := by
    ring
  have hjk : j * nb + k < nw * nb := by
    have h1 : j * nb + k < (j + 1) * nb := by
      have : (j + 1) * nb = j * nb + nb := by ring
      omega
    have h2 : (j + 1) * nb ≤ nw * nb := Nat.mul_le_mul_right nb hj
    omega
  unfold read_A_mat export_AME_amn
  rw [idx]
  rw [getD_flatMap_range nk (nw * nb) _ hf1 i (j * nb + k) hi hjk]
  rw [getD_flatMap_range nw nb _ (fun w => by simp) j k hj hk]
  have hkk : k < ((List.range nb).map (fun b => amnLine A i j b)).length := by
    simp [hk]
  rw [List.getD_eq_getElem _ _ hkk, List.getElem_map, List.getElem_range]
  simp [amnLine]

/-- Witness for C5 on a 1×1×1 matrix with entry `5 + 7i`. -/
theorem amn_round_trip_witness :
    read_A_mat 1 1 (export_AME_amn 1 1 1 (fun _ _ _ => ((5 : ℚ), (7 : ℚ))))
      0 0 0 = ((5 : ℚ), (7 : ℚ)) :=
  amn_round_trip 1 1 1 (fun _ _ _ => ((5 : ℚ), (7 : ℚ))) 0 0 0
    (by decide) (by decide) (by decide)

/-! ## `W90.get_wannier` global-phase fix
(src/mcu/wannier90/pywannier90_vasp.py, lines 683-693)

For each Wannier-function column `WF0[:, j]` the code finds
`max_index = argmax((WF0 * WF0.conj()).real)` along the grid axis, divides
the whole column by the unit-modulus phase
`WF0[max_index, j] / |WF0[max_index, j]|` and by `num_kpts`.  Grid values
are modelled as exact complex numbers given by rational real/imaginary
parts (`wfMaxIdx` is then computed in ℚ, `np.argmax` first-occurrence
semantics as in `argmaxIdx`). -/

/-- `|z|²` for a grid value given as a (re, im) pair: the quantity
`(WF0*WF0.conj()).real` that `argmax` runs over. -/
def cNormSq (z : ℚ × ℚ) : ℚ := z.1 ^ 2 + z.2 ^ 2

/-- `max_index` for one column. -/
def wfMaxIdx (col : List (ℚ × ℚ)) : ℕ := argmaxIdx (col.map cNormSq)

/-- Interpret a (re, im) pair as a complex number. -/
noncomputable def toC (z : ℚ × ℚ) : ℂ := ⟨(z.1 : ℝ), (z.2 : ℝ)⟩

/-- One column of `WF0` after the global-phase fix
`WF0 = WF0 / norm_wfs / self.num_kpts_loc`:
entry `i` becomes `WF0[i] / (z / |z|) / nk` where `z` is the column entry
of maximal modulus. -/
noncomputable def fixWF (nk : ℕ) (col : List (ℚ × ℚ)) (i : ℕ) : ℂ :=
  toC (col.getD i (0, 0)) /
    (toC (col.getD (wfMaxIdx col) (0, 0)) /
      (Complex.abs (toC (col.getD (wfMaxIdx col) (0, 0))) : ℂ)) /
    (nk : ℂ)

/-- C6.  After the global-phase fix in `W90.get_wannier`, the grid value
of maximal modulus of every Wannier function is real and non-negative
(its imaginary part is zero), provided that value is nonzero (otherwise
the code divides `0/0`) and there is at least one k-point. -/
theorem get_wannier_phase_fix_real_nonneg (nk : ℕ) (col : List (ℚ × ℚ))
    (hnk : 0 < nk) (hz : col.getD (wfMaxIdx col) (0, 0) ≠ ((0 : ℚ), (0 : ℚ))) :
    (fixWF nk col (wfMaxIdx col)).im = 0 ∧
      0 ≤ (fixWF nk col (wfMaxIdx col)).re := by
  set z : ℂ := toC (col.getD (wfMaxIdx col) (0, 0)) with hzdef
  have hz0 : z ≠ 0 := by
    intro h0
    apply hz
    have hre : (((col.getD (wfMaxIdx col) (0, 0)).1 : ℚ) : ℝ) = 0 := by
      have := congrArg Complex.re h0
      simpa [hzdef, toC] using this
    have him : (((col.getD (wfMaxIdx col) (0, 0)).2 : ℚ) : ℝ) = 0 := by
      have := congrArg Complex.im h0
      simpa [hzdef, toC] using this
    have h1 : (col.getD (wfMaxIdx col) (0, 0)).1 = 0 := by exact_mod_cast hre
    have h2 : (col.getD (wfMaxIdx col) (0, 0)).2 = 0 := by exact_mod_cast him
    exact Prod.ext h1 h2
  have habs : (Complex.abs z : ℝ) ≠ 0 := Complex.abs.ne_zero hz0
  have habsC : ((Complex.abs z : ℝ) : ℂ) ≠ 0 := by
    exact_mod_cast habs
  have key : fixWF nk col (wfMaxIdx col) =
      (((Complex.abs z / nk : ℝ)) : ℂ) := by
    unfold fixWF
    rw [← hzdef]
    rw [div_div_eq_mul_div, mul_comm, mul_div_assoc, div_self hz0, mul_one]
    push_cast
    ring
  rw [key]
  constructor
  · simp
  · simp only [Complex.ofReal_re]
    positivity

/-- Witness for C6: a single-entry column holding the value `1`. -/
theorem get_wannier_phase_fix_real_nonneg_witness :
    (fixWF 1 [((1 : ℚ), (0 : ℚ))] (wfMaxIdx [((1 : ℚ), (0 : ℚ))])).im = 0 ∧
      0 ≤ (fixWF 1 [((1 : ℚ), (0 : ℚ))] (wfMaxIdx [((1 : ℚ), (0 : ℚ))])).re :=
  get_wannier_phase_fix_real_nonneg 1 [((1 : ℚ), (0 : ℚ))] (by decide)
    (by simp [wfMaxIdx, argmaxIdx, argmaxAux, cNormSq])

/-! ## `VASP.__init__`, list-of-names branch
(src/mcu/vasp/main.py, lines 24-47)

The xml loop builds each file name `path + '/' + xml + '.xml'`, prints and
`break`s at the first name failing `utils.check_exist`, else appends a
vasprun object (modelled by its file name).  After the loop the code runs
`self.get_info(self.vasprun[0])`, which raises `IndexError` when nothing
was loaded.  The OUTCAR loop is analogous with file name
`path + '/' + outcar` and no element access afterwards; `self.useOUTCAR`
is only assigned (to `True`) inside the loop body, so it stays unset
(modelled `none`) when no outcar is appended, and the `assert
len(outcars) == len(vaspruns)` before the loop is modelled as an
`AssertionError`.  The filesystem is a predicate `ex` on file names. -/

/-- The `for ... append / print-and-break` loop shared by the two loaders,
keeping the constructed file names of the objects actually loaded. -/
def loadLoop (ex : String → Bool) (mk : String → String) :
    List String → List String
  | [] => []
  | x :: xs => if ex (mk x) then mk x :: loadLoop ex mk xs else []

/-- Attributes set by the list branch of `VASP.__init__`. -/
structure VaspInit where
  vaspruns : List String
  outcars : List String
  useOUTCAR : Option Bool
deriving DecidableEq

/-- The list-of-names branch of `VASP.__init__`. -/
def vaspInitList (ex : String → Bool) (path : String)
    (vaspruns : List String) (outcars : Option (List String)) :
    Except String VaspInit :=
  if (loadLoop ex (fun x => path ++ "/" ++ x ++ ".xml") vaspruns).isEmpty then
    Except.error "IndexError: list index out of range"
  else
    match outcars with
    | none =>
      Except.ok ⟨loadLoop ex (fun x => path ++ "/" ++ x ++ ".xml") vaspruns,
        [], none⟩
    | some ocs =>
      if ocs.length = vaspruns.length then
        Except.ok ⟨loadLoop ex (fun x => path ++ "/" ++ x ++ ".xml") vaspruns,
          loadLoop ex (fun x => path ++ "/" ++ x) ocs,
          if (loadLoop ex (fun x => path ++ "/" ++ x) ocs).isEmpty then none
          else some true⟩
      else Except.error "AssertionError"

/-- C7 as stated is false: when the first `.xml` file is missing, the loop
does break, but `self.get_info(self.vasprun[0])` then raises `IndexError`,
so `__init__` does raise a structured error. -/
theorem vasp_init_counterexample :
    vaspInitList (fun _ => false) "." ["a", "b"] none =
      Except.error "IndexError: list index out of range" := rfl

/-- The loading loop keeps exactly the objects before the first missing
file. -/
theorem loadLoop_eq_map_of_prefix (ex : String → Bool) (mk : String → String)
    (pre rest : List String) (bad : String)
    (hpre : ∀ x ∈ pre, ex (mk x) = true) (hbad : ex (mk bad) = false) :
    loadLoop ex mk (pre ++ bad :: rest) = pre.map mk := by
  induction pre with
  | nil => simp [loadLoop, hbad]
  | cons p ps ih =>
    have hp : ex (mk p) = true := hpre p (List.mem_cons_self p ps)
    have hps : ∀ x ∈ ps, ex (mk x) = true := fun x hx =>
      hpre x (List.mem_cons_of_mem p hx)
    simp [loadLoop, hp, ih hps]

/-- C7 amended.  When `VASP.__init__` is given a list of vasprun names
containing a missing `.xml` file that is not the first entry, it breaks
out of the loading loop keeping exactly the vasprun objects loaded before
the missing file, and raises nothing; likewise the OUTCAR loop keeps the
outcars before its first missing file (and `useOUTCAR` stays unset when
that is the very first).  If instead the first `.xml` file is missing,
`__init__` raises `IndexError` at `self.vasprun[0]`. -/
theorem vasp_init_breaks_and_keeps_prefix (ex : String → Bool) (path : String)
    (p0 : String) (pre rest : List String) (bad : String)
    (hpre : ∀ x ∈ p0 :: pre, ex (path ++ "/" ++ x ++ ".xml") = true)
    (hbad : ex (path ++ "/" ++ bad ++ ".xml") = false)
    (opre orest : List String) (obad : String)
    (hopre : ∀ x ∈ opre, ex (path ++ "/" ++ x) = true)
    (hobad : ex (path ++ "/" ++ obad) = false)
    (hlen : (opre ++ obad :: orest).length =
      ((p0 :: pre) ++ bad :: rest).length) :
    vaspInitList ex path ((p0 :: pre) ++ bad :: rest)
        (some (opre ++ obad :: orest)) =
      Except.ok ⟨(p0 :: pre).map (fun x => path ++ "/" ++ x ++ ".xml"),
        opre.map (fun x => path ++ "/" ++ x),
        if opre.isEmpty then none else some true⟩ := by
  have h1 := loadLoop_eq_map_of_prefix ex
    (fun x => path ++ "/" ++ x ++ ".xml") (p0 :: pre) rest bad hpre hbad
  have h2 := loadLoop_eq_map_of_prefix ex
    (fun x => path ++ "/" ++ x) opre orest obad hopre hobad
  unfold vaspInitList
  rw [h1, if_neg (by simp)]
  dsimp only
  rw [if_pos hlen, h2]
  congr 1
  rcases opre with _ | ⟨o, os⟩ <;> simp

/-- Witness for the amended C7: `a.xml` and outcar `oa` exist, `b.xml` and
outcar `ob` do not. -/
theorem vasp_init_breaks_and_keeps_prefix_witness :
    vaspInitList (fun s => s == "./a.xml" || s == "./oa") "."
        (["a"] ++ "b" :: []) (some (["oa"] ++ "ob" :: [])) =
      Except.ok ⟨["./a.xml"], ["./oa"],
        if (["oa"] : List String).isEmpty then none else some true⟩ :=
  vasp_init_breaks_and_keeps_prefix (fun s => s == "./a.xml" || s == "./oa")
    "." "a" [] [] "b" (by decide) (by decide) ["oa"] [] "ob"
    (by decide) (by decide) (by decide)

/-! ## `VASP._generate_pband`, string `lm` argument
(src/mcu/vasp/main.py, lines 341-541)

The style dispatch and the validation/parsing of a string `lm` argument.
Python strings are modelled as `List Char` (named `PyStr`) so that
`lm.split(...)` can be modelled by a structurally recursive split.  The
projected weights `proj_wf[kpt, band, atom, lm]` collected before the
dispatch are an input (`PbandInput.proj`), with the atom axis matching
`self.atom` and the lm axis matching `vasprun.lm`.  A raised exception is
an `Except.error`; numpy elementwise arithmetic (including division, which
warns but never raises) is exact rational arithmetic, and a `[kpt, band]`
array is a function `ℕ → ℕ → ℚ`. -/

abbrev PyStr := List Char

/-- Python `str.split(c)` for a single-character separator: split on every
occurrence, keeping empty segments. -/
def splitOnAux (c : Char) : List Char → List Char → List (List Char)
  | [], acc => [acc.reverse]
  | x :: xs, acc =>
    if x = c then acc.reverse :: splitOnAux c xs []
    else splitOnAux c xs (x :: acc)

def splitOnChar (c : Char) (s : List Char) : List (List Char) :=
  splitOnAux c s []

/-- `['px','py','pz']`: the expansion of the `p` shell. -/
def pOrbs : List PyStr := ["px".toList, "py".toList, "pz".toList]

/-- `['dxy','dyz','dz2','dxz','dx2-y2']`: the expansion of the `d`
shell. -/
def dOrbs : List PyStr :=
  ["dxy".toList, "dyz".toList, "dz2".toList, "dxz".toList, "dx2-y2".toList]

/-- The `lm_shortcut` list of the style-1 branch. -/
def lmShortcut1 : List PyStr :=
  ["p".toList, "d".toList, "sp".toList, "ps".toList, "pd".toList,
   "dp".toList, "sd".toList, "ds".toList, "spd".toList, "sdp".toList,
   "psd".toList, "pds".toList, "dsp".toList, "dps".toList]

/-- The `lm_shortcut` list of the style-3 branch. -/
def lmShortcut3 : List PyStr := ["sp".toList, "sd".toList, "pd".toList]

/-- An entry of the expanded `lm` list: a single orbital name or a group
of names summed together. -/
inductive LmGroup where
  | single : PyStr → LmGroup
  | multi : List PyStr → LmGroup

/-- The `elif` chain of the style-1 branch mapping a validated string to
its group list (`else: lm = [lm]` for a plain orbital name). -/
def expand1 (lm : PyStr) : List LmGroup :=
  if lm = "p".toList then [.multi pOrbs]
  else if lm = "d".toList then [.multi dOrbs]
  else if lm = "sp".toList then [.single "s".toList, .multi pOrbs]
  else if lm = "ps".toList then [.multi pOrbs, .single "s".toList]
  else if lm = "sd".toList then [.single "s".toList, .multi dOrbs]
  else if lm = "ds".toList then [.multi dOrbs, .single "s".toList]
  else if lm = "pd".toList then [.multi pOrbs, .multi dOrbs]
  else if lm = "dp".toList then [.multi dOrbs, .multi pOrbs]
  else if lm = "spd".toList then
    [.single "s".toList, .multi pOrbs, .multi dOrbs]
  else if lm = "sdp".toList then
    [.single "s".toList, .multi dOrbs, .multi pOrbs]
  else if lm = "psd".toList then
    [.multi pOrbs, .single "s".toList, .multi dOrbs]
  else if lm = "pds".toList then
    [.multi pOrbs, .multi dOrbs, .single "s".toList]
  else if lm = "dsp".toList then
    [.multi dOrbs, .single "s".toList, .multi pOrbs]
  else if lm = "dps".toList then
    [.multi dOrbs, .multi pOrbs, .single "s".toList]
  else [.single lm]

/-- `list.index(x)`: first index of `x`, `ValueError` if absent. -/
def idxOfE : List PyStr → PyStr → Except String ℕ
  | [], _ => Except.error "ValueError: orbital is not in lm list"
  | y :: ys, x =>
    if y = x then Except.ok 0 else (idxOfE ys x).map (fun i => i + 1)

/-- Run an except-valued function over a list, propagating the first
raised exception. -/
def mapExcept {α β : Type} (f : α → Except String β) :
    List α → Except String (List β)
  | [] => Except.ok []
  | x :: xs =>
    match f x, mapExcept f xs with
    | Except.ok y, Except.ok ys => Except.ok (y :: ys)
    | Except.error e, _ => Except.error e
    | _, Except.error e => Except.error e

/-- Data available to `_generate_pband` when `lm` is validated: the
recognized orbital names (`vasprun.lm`), the atom symbols (`self.atom`)
and the collected projected weights `proj_wf[kpt, band, atom, lm]`. -/
structure PbandInput where
  lm_list : List PyStr
  atom : List PyStr
  proj : ℕ → ℕ → ℕ → ℕ → ℚ

/-- `proj_wf.sum(axis=2)`: weights summed over the atom axis. -/
def sumAtoms (inp : PbandInput) (k b l : ℕ) : ℚ :=
  ((List.range inp.atom.length).map (fun a => inp.proj k b a l)).sum

/-- Style-1 `total`: sum over atoms then over lm. -/
def totalS1 (inp : PbandInput) (k b : ℕ) : ℚ :=
  ((List.range inp.lm_list.length).map (fun l => sumAtoms inp k b l)).sum

/-- Style-2 `total`: `proj_wf.sum(axis=(2,3))`. -/
def totalS2 (inp : PbandInput) (k b : ℕ) : ℚ :=
  ((List.range inp.atom.length).map (fun a =>
    ((List.range inp.lm_list.length).map (fun l => inp.proj k b a l)).sum)).sum

/-- One entry of the style-1 `pband` list: `proj_wf[:,:,idx]/total` for a
single name, the sum of such quotients for a group. -/
def style1Group (inp : PbandInput) : LmGroup → Except String (ℕ → ℕ → ℚ)
  | .single s =>
    (idxOfE inp.lm_list s).map
      (fun i => fun k b => sumAtoms inp k b i / totalS1 inp k b)
  | .multi orbs =>
    (mapExcept (idxOfE inp.lm_list) orbs).map
      (fun is => fun k b =>
        (is.map (fun i => sumAtoms inp k b i / totalS1 inp k b)).sum)

/-- The style-1 branch for a string `lm`: raise unless `lm` is a
recognized name or shortcut, else expand and build `pband`. -/
def style1 (inp : PbandInput) (lm : PyStr) :
    Except String (List (ℕ → ℕ → ℚ)) :=
  if lm ∉ inp.lm_list ∧ lm ∉ lmShortcut1 then
    Except.error "Exception: WARNING lm is not recognizable"
  else
    mapExcept (style1Group inp) (expand1 lm)

/-- The per-orbital expansion of the style-2 parser: `p` and `d` expand to
their shells, anything else stays itself. -/
def expandOrb (s : PyStr) : List PyStr :=
  if s = "p".toList then pOrbs
  else if s = "d".toList then dOrbs
  else [s]

/-- The style-2 branch for a string `lm`: parse `atom:orbitals`
(`ValueError` unless the colon split has exactly two parts), expand the
comma-separated orbitals, collect the atom indices matching the atom name
and the lm indices of each orbital (`ValueError` if one is unknown); if no
atom matches, `proj_val_atom` stays the integer `0` and its first
subscript raises `TypeError`; otherwise `pband` holds the single matrix
`proj_val / total`. -/
def style2 (inp : PbandInput) (lm : PyStr) :
    Except String (List (ℕ → ℕ → ℚ)) :=
  match splitOnChar ':' lm with
  | [atomName, lmStr] =>
    let orbs := (splitOnChar ',' lmStr).flatMap expandOrb
    let idx_atom := (List.range inp.atom.length).filter
      (fun a => inp.atom.getD a [] = atomName)
    match mapExcept (idxOfE inp.lm_list) orbs with
    | Except.error e => Except.error e
    | Except.ok idx_lm =>
      if idx_atom.isEmpty ∧ ¬ idx_lm.isEmpty then
        Except.error "TypeError: int object is not subscriptable"
      else
        Except.ok [fun k b =>
          (idx_lm.map (fun l =>
            (idx_atom.map (fun a => inp.proj k b a l)).sum)).sum /
          totalS2 inp k b]
  | _ => Except.error "ValueError: not enough values to unpack"

/-- One entry of the style-3 `pband` list (no division by `total`). -/
def style3Group (inp : PbandInput) : LmGroup → Except String (ℕ → ℕ → ℚ)
  | .single s =>
    (idxOfE inp.lm_list s).map (fun i => fun k b => sumAtoms inp k b i)
  | .multi orbs =>
    (mapExcept (idxOfE inp.lm_list) orbs).map
      (fun is => fun k b => (is.map (fun i => sumAtoms inp k b i)).sum)

/-- The style-3 branch for a string `lm`: raise unless `lm` is one of
`sp`, `sd`, `pd`; the final `pband` is `pband[0] / pband.sum(axis=0)`. -/
def style3 (inp : PbandInput) (lm : PyStr) :
    Except String (List (ℕ → ℕ → ℚ)) :=
  if lm ∉ lmShortcut3 then
    Except.error "Exception: WARNING lm is not recognizable"
  else
    (mapExcept (style3Group inp)
      (if lm = "sp".toList then [LmGroup.single "s".toList, .multi pOrbs]
       else if lm = "sd".toList then [.single "s".toList, .multi dOrbs]
       else [.multi pOrbs, .multi dOrbs])).map
      (fun vals =>
        [fun k b => (vals.getD 0 (fun _ _ => 0)) k b /
          ((vals.map (fun f => f k b)).sum)])

/-- The style dispatch of `VASP._generate_pband` for a string `lm`
argument: styles 1, 2, 3 are implemented; any other style raises. -/
def generatePband (inp : PbandInput) (style : ℤ) (lm : PyStr) :
    Except String (List (ℕ → ℕ → ℚ)) :=
  if style = 1 then style1 inp lm
  else if style = 2 then style2 inp lm
  else if style = 3 then style3 inp lm
  else Except.error "Exception: mcu currently supports only style: 0,1,2"

/-- Did the call raise? -/
def isErr {α : Type} : Except String α → Bool
  | Except.error _ => true
  | Except.ok _ => false

/-- The exact condition under which the style-2 branch raises, stated
declaratively: the colon split must have exactly two parts, every
expanded orbital name must be in the recognized lm list, and — unless no
orbital is requested — some atom site must match the atom name. -/
def style2Raises (inp : PbandInput) (lm : PyStr) : Bool :=
  match splitOnChar ':' lm with
  | [atomName, lmStr] =>
    ((splitOnChar ',' lmStr).flatMap expandOrb).any
      (fun o => decide (o ∉ inp.lm_list)) ||
    (((List.range inp.atom.length).filter
        (fun a => inp.atom.getD a [] = atomName)).isEmpty &&
      !((splitOnChar ',' lmStr).flatMap expandOrb).isEmpty)
  | _ => true

theorem isErr_map {α β : Type} (f : α → β) (e : Except String α) :
    isErr (e.map f) = isErr e := by
  cases e <;> rfl

/-- `list.index(x)` raises exactly when `x` is absent. -/
theorem isErr_idxOfE (L : List PyStr) (x : PyStr) :
    isErr (idxOfE L x) = decide (x ∉ L) := by
  induction L with
  | nil => rfl
  | cons y ys ih =>
    simp only [idxOfE]
    by_cases h : y = x
    · rw [if_pos h]
      subst h
      simp [isErr]
    · rw [if_neg h, isErr_map, ih, decide_eq_decide]
      constructor
      · intro hn hmem
        rcases List.mem_cons.mp hmem with h1 | h2
        · exact h h1.symm
        · exact hn h2
      · intro hn h2
        exact hn (List.mem_cons_of_mem _ h2)

/-- `mapExcept` raises exactly when some element raises. -/
theorem isErr_mapExcept {α β : Type} (f : α → Except String β)
    (l : List α) :
    isErr (mapExcept f l) = l.any (fun x => isErr (f x)) := by
  induction l with
  | nil => rfl
  | cons x xs ih =>
    simp only [mapExcept, List.any_cons]
    cases hf : f x with
    | error e =>
      cases hm : mapExcept f xs with
      | error e2 => simp [hf, isErr]
      | ok ys => simp [hf, isErr]
    | ok y =>
      cases hm : mapExcept f xs with
      | error e2 =>
        rw [hm] at ih
        rw [← ih]
        simp [isErr]
      | ok ys =>
        rw [hm] at ih
        rw [← ih]
        simp [isErr]

/-- A successful `mapExcept` yields one result per element. -/
theorem mapExcept_ok_length {α β : Type} (f : α → Except String β)
    (l : List α) (ys : List β) (h : mapExcept f l = Except.ok ys) :
    ys.length = l.length := by
  induction l generalizing ys with
  | nil =>
    simp only [mapExcept] at h
    injection h with h
    subst h
    rfl
  | cons x xs ih =>
    simp only [mapExcept] at h
    cases hf : f x with
    | error e => simp [hf] at h
    | ok y =>
      cases hm : mapExcept f xs with
      | error e2 => simp [hf, hm] at h
      | ok ys2 =>
        simp only [hf, hm] at h
        injection h with h
        subst h
        simp [ih ys2 hm]

/-- The style-2 branch raises exactly on the condition `style2Raises`:
a bad colon split raises `ValueError` at unpacking, an unknown expanded
orbital raises `ValueError` at `lm_list.index`, and a non-matching atom
name (with at least one orbital requested) leaves `proj_val_atom` the
integer `0`, whose subscript raises `TypeError`; in every other case the
branch completes without raising. -/
theorem isErr_style2_eq (inp : PbandInput) (lm : PyStr) :
    isErr (style2 inp lm) = style2Raises inp lm := by
  unfold style2 style2Raises
  cases hs : splitOnChar ':' lm with
  | nil => rfl
  | cons a tl =>
    cases tl with
    | nil => rfl
    | cons b tl2 =>
      cases tl2 with
      | cons c cs => rfl
      | nil =>
        dsimp only
        cases hm : mapExcept (idxOfE inp.lm_list)
            ((splitOnChar ',' b).flatMap expandOrb) with
        | error e =>
          have h1 : ((splitOnChar ',' b).flatMap expandOrb).any
              (fun o => decide (o ∉ inp.lm_list)) = true := by
            have hh := isErr_mapExcept (idxOfE inp.lm_list)
              ((splitOnChar ',' b).flatMap expandOrb)
            rw [hm] at hh
            simp only [isErr_idxOfE] at hh
            exact hh.symm.trans rfl
          dsimp only
          rw [h1, Bool.true_or]
          rfl
        | ok idx_lm =>
          have h1 : ((splitOnChar ',' b).flatMap expandOrb).any
              (fun o => decide (o ∉ inp.lm_list)) = false := by
            have hh := isErr_mapExcept (idxOfE inp.lm_list)
              ((splitOnChar ',' b).flatMap expandOrb)
            rw [hm] at hh
            simp only [isErr_idxOfE] at hh
            exact hh.symm.trans rfl
          have hlen := mapExcept_ok_length _ _ _ hm
          have hemp : idx_lm.isEmpty =
              ((splitOnChar ',' b).flatMap expandOrb).isEmpty := by
            rcases idx_lm with _ | ⟨z, zs⟩ <;>
              rcases ho : (splitOnChar ',' b).flatMap expandOrb
                with _ | ⟨w, ws⟩ <;>
              simp_all
          dsimp only
          rw [h1, Bool.false_or, ← hemp]
          by_cases hc : ((List.range inp.atom.length).filter
              (fun a2 => inp.atom.getD a2 [] = a)).isEmpty = true ∧
              ¬(idx_lm.isEmpty = true)
          · rw [if_pos hc]
            obtain ⟨hc1, hc2⟩ := hc
            cases hL : idx_lm.isEmpty with
            | true => exact absurd hL hc2
            | false =>
              rw [hc1]
              rfl
          · rw [if_neg hc]
            cases hA : ((List.range inp.atom.length).filter
                (fun a2 => inp.atom.getD a2 [] = a)).isEmpty with
            | false => simp [isErr]
            | true =>
              cases hL : idx_lm.isEmpty with
              | true => simp [isErr]
              | false => exact absurd ⟨hA, by simp [hL]⟩ hc

/-- The standard VASP orbital list with one `Ni` atom site; the weights
are all 1. -/
def pbandCexInput : PbandInput where
  lm_list := ["s".toList, "py".toList, "pz".toList, "px".toList,
    "dxy".toList, "dyz".toList, "dz2".toList, "dxz".toList,
    "dx2-y2".toList]
  atom := ["Ni".toList]
  proj := fun _ _ _ _ => 1

/-- C8 as stated is false: with style 2 the string `Ni:s` is not among
the recognized lm names or shortcuts, yet `_generate_pband` accepts it
and raises nothing. -/
theorem generate_pband_claim_counterexample :
    ("Ni:s".toList ∉ pbandCexInput.lm_list ∧
     "Ni:s".toList ∉ lmShortcut1 ∧ "Ni:s".toList ∉ lmShortcut3) ∧
    isErr (generatePband pbandCexInput 2 "Ni:s".toList) = false :=
  ⟨by decide, by decide⟩

/-- C8 amended.  For styles 1 and 3, every string `lm` outside the
recognized names/shortcuts raises the explicit `Exception`; every
unsupported style raises regardless of `lm`; and style 2 instead parses
the string as `atom:orbitals` and raises exactly when the colon split
does not have two parts, an expanded orbital name is not among the
recognized lm names, or no atom site matches the atom name while at
least one orbital is requested — so in every other case, in particular
for a well-formed `atom:orbitals` string with known orbitals and a
matching atom, it completes without raising. -/
theorem generate_pband_malformed_lm_raises :
    (∀ (inp : PbandInput) (lm : PyStr), lm ∉ inp.lm_list →
      lm ∉ lmShortcut1 → isErr (generatePband inp 1 lm) = true) ∧
    (∀ (inp : PbandInput) (lm : PyStr), lm ∉ lmShortcut3 →
      isErr (generatePband inp 3 lm) = true) ∧
    (∀ (inp : PbandInput) (lm : PyStr) (style : ℤ), style ≠ 1 →
      style ≠ 2 → style ≠ 3 → isErr (generatePband inp style lm) = true) ∧
    (∀ (inp : PbandInput) (lm : PyStr),
      isErr (generatePband inp 2 lm) = style2Raises inp lm) := by
  refine ⟨?_, ?_, ?_, ?_⟩
  · intro inp lm h1 h2
    simp [generatePband, style1, h1, h2, isErr]
  · intro inp lm h1
    simp [generatePband, style3, h1, isErr]
  · intro inp lm style h1 h2 h3
    simp [generatePband, h1, h2, h3, isErr]
  · intro inp lm
    have h1 : ¬((2 : ℤ) = 1) := by decide
    rw [generatePband, if_neg h1, if_pos rfl]
    exact isErr_style2_eq inp lm

/-- Witness for the amended C8 at concrete arguments: malformed strings
for styles 1, 3, an unsupported style, and the three style-2 raise
conditions (missing colon, unknown orbital, non-matching atom). -/
theorem generate_pband_malformed_lm_raises_witness :
    isErr (generatePband pbandCexInput 1 "zz".toList) = true ∧
    isErr (generatePband pbandCexInput 3 "zz".toList) = true ∧
    isErr (generatePband pbandCexInput 0 "s".toList) = true ∧
    isErr (generatePband pbandCexInput 2 "nocolon".toList) = true ∧
    isErr (generatePband pbandCexInput 2 "Ni:qq".toList) = true ∧
    isErr (generatePband pbandCexInput 2 "Xx:s".toList) = true :=
  ⟨generate_pband_malformed_lm_raises.1 pbandCexInput "zz".toList
      (by decide) (by decide),
   generate_pband_malformed_lm_raises.2.1 pbandCexInput "zz".toList
      (by decide),
   generate_pband_malformed_lm_raises.2.2.1 pbandCexInput "s".toList 0
      (by decide) (by decide) (by decide),
   (generate_pband_malformed_lm_raises.2.2.2 pbandCexInput
      "nocolon".toList).trans (by decide),
   (generate_pband_malformed_lm_raises.2.2.2 pbandCexInput
      "Ni:qq".toList).trans (by decide),
   (generate_pband_malformed_lm_raises.2.2.2 pbandCexInput
      "Xx:s".toList).trans (by decide)⟩

end Mcu


